import Mathlib

/-!
Verification of the `DependencyService` class of
`src/app/services/dependency.service.ts` (repository Dependency-UI).

The service holds three in-memory lists behind rxjs `BehaviorSubject`s:
services, dependencies and usage analytics.  Every operation reads the
current list value and emits a new one, so each method is modelled as a
pure function on an explicit state record `DepState`.

Conventions of the shallow embedding:
  * TypeScript string enums (`ServiceType`, `ServiceStatus`, ...) are
    strings at runtime and are compared with `===` against plain strings
    (`getServicesByType(type: string)`), so they are modelled as `String`.
  * `Date` values are modelled by their epoch timestamp as an `Int` in the
    typed model.  JavaScript `number` is modelled as `Int`; no claim
    depends on fractional or floating-point behaviour.
  * Optional fields (`description?`) are `Option`; `Record<string, any>`
    metadata is carried opaquely as an association list of strings; no
    operation of the service ever reads it.
  * For the JSON import/export operations the runtime value universe of
    JavaScript is modelled by the inductive type `JsValue` below, because
    `importData` performs no validation and `JSON.stringify` does not
    round-trip `Date` objects.
-/

/-- `HealthCheck` record of `service.model.ts` (times as `Int`). -/
structure HealthCheck where
  endpoint : String
  interval : Int
  timeout : Int
  lastCheck : Option Int
  status : String
  responseTime : Option Int
  errorMessage : Option String
  deriving DecidableEq, Repr

/-- `Service` record of `service.model.ts`. -/
structure Service where
  id : String
  name : String
  type : String
  description : Option String
  url : Option String
  port : Option Int
  environment : String
  team : Option String
  lastSeen : Int
  status : String
  tags : List String
  metadata : List (String × String)
  healthCheck : Option HealthCheck
  criticality : String
  owner : Option String
  version : Option String
  deploymentDate : Option Int
  lastDeployment : Option Int
  uptime : Option Int
  responseTime : Option Int
  errorRate : Option Int
  deriving DecidableEq, Repr

/-- `RetryPolicy` record of `service.model.ts`. -/
structure RetryPolicy where
  maxRetries : Int
  backoffStrategy : String
  baseDelay : Int
  maxDelay : Int
  deriving DecidableEq, Repr

/-- `Dependency` record of `service.model.ts`. -/
structure Dependency where
  id : String
  sourceServiceId : String
  targetServiceId : String
  dependencyType : String
  usageCount : Int
  lastUsed : Int
  description : Option String
  isActive : Bool
  metadata : List (String × String)
  weight : Int
  frequency : String
  isCritical : Bool
  failureImpact : String
  latency : Option Int
  errorRate : Option Int
  retryPolicy : Option RetryPolicy
  deriving DecidableEq, Repr

/-- `DependencyUsage` record of `service.model.ts`. -/
structure DependencyUsage where
  dependencyId : String
  usageCount : Int
  lastUsed : Int
  averageResponseTime : Int
  errorCount : Int
  deriving DecidableEq, Repr

/-- `UsageAnalytics` record of `service.model.ts`. -/
structure UsageAnalytics where
  serviceId : String
  totalRequests : Int
  averageResponseTime : Int
  errorRate : Int
  lastActivity : Int
  peakUsageTime : Int
  dependencies : List DependencyUsage
  deriving DecidableEq, Repr

/-- The in-memory state of `DependencyService`: the current values of
`servicesSubject`, `dependenciesSubject` and `analyticsSubject`. -/
structure DepState where
  services : List Service
  dependencies : List Dependency
  analytics : List UsageAnalytics
  deriving DecidableEq, Repr

/-- `addService`: appends to the services list
(`next([...currentServices, service])`). -/
def addService (service : Service) (st : DepState) : DepState :=
  { st with services := st.services ++ [service] }

/-- `updateService`: `findIndex` on the id, and in-place replacement of the
first match; no-op when the id is absent. -/
def updateService (service : Service) (st : DepState) : DepState :=
  match st.services.findIdx? (fun s => s.id == service.id) with
  | some index => { st with services := st.services.set index service }
  | none => st

/-- `deleteService`: filters the service out of the services list and also
filters out every dependency whose source or target is the deleted id
(the "Remove related dependencies" block). -/
def deleteService (serviceId : String) (st : DepState) : DepState :=
  { st with
    services := st.services.filter (fun s => s.id != serviceId),
    dependencies := st.dependencies.filter
      (fun d => d.sourceServiceId != serviceId && d.targetServiceId != serviceId) }

/-- `getServiceById`: `find` on the id. -/
def getServiceById (id : String) (st : DepState) : Option Service :=
  st.services.find? (fun s => s.id == id)

/-- JavaScript `String.prototype.toLowerCase`, characterwise (the same
function as `String.map Char.toLower`, stated over the character list so
that it evaluates by kernel reduction). -/
def jsToLower (s : String) : String :=
  String.mk (s.data.map Char.toLower)

/-- JavaScript `String.prototype.includes`: substring containment. -/
def jsIncludes (hay sub : String) : Bool :=
  decide (sub.data <:+: hay.data)

/-- `searchServices`: lowercases the query once and keeps the services whose
lowercased name, lowercased description (when present — the source uses the
optional-chaining call `description?.toLowerCase()`), or one lowercased tag
contains it. -/
def searchServices (query : String) (st : DepState) : List Service :=
  let lowerQuery := jsToLower query
  st.services.filter (fun service =>
    jsIncludes (jsToLower service.name) lowerQuery
    || (match service.description with
        | some d => jsIncludes (jsToLower d) lowerQuery
        | none => false)
    || service.tags.any (fun tag => jsIncludes (jsToLower tag) lowerQuery))

/-- `getServicesByType`: filter on `service.type === type`. -/
def getServicesByType (type : String) (st : DepState) : List Service :=
  st.services.filter (fun service => service.type == type)

/-- `getServicesByStatus`: filter on `service.status === status`. -/
def getServicesByStatus (status : String) (st : DepState) : List Service :=
  st.services.filter (fun service => service.status == status)

/-- C3: `getServicesByStatus X` returns a sublist of the services list (so
the order of the list is preserved) containing exactly the services whose
`status` field equals `X`. -/
theorem getServicesByStatus_spec (X : String) (st : DepState) :
    List.Sublist (getServicesByStatus X st) st.services ∧
    ∀ s : Service, s ∈ getServicesByStatus X st ↔ s ∈ st.services ∧ s.status = X := by
  refine ⟨List.filter_sublist _, fun s => ?_⟩
  simp [getServicesByStatus, List.mem_filter]

/-- C8: `getServicesByType T` returns a sublist of the services list (order
preserved) containing exactly the services whose `type` field equals `T`. -/
theorem getServicesByType_spec (T : String) (st : DepState) :
    List.Sublist (getServicesByType T st) st.services ∧
    ∀ s : Service, s ∈ getServicesByType T st ↔ s ∈ st.services ∧ s.type = T := by
  refine ⟨List.filter_sublist _, fun s => ?_⟩
  simp [getServicesByType, List.mem_filter]

/-- Helper: `List.findIdx?` returns the first index satisfying the predicate. -/
theorem findIdx?_first {α : Type} (p : α → Bool) (l : List α) :
    ∀ (i : Nat) (hi : i < l.length),
      p (l.get ⟨i, hi⟩) = true →
      (∀ (j : Nat) (hj : j < i), p (l.get ⟨j, Nat.lt_trans hj hi⟩) = false) →
      l.findIdx? p = some i := by
  induction l with
  | nil => exact fun i hi => absurd hi (Nat.not_lt_zero i)
  | cons x xs ih =>
    intro i hi hp hb
    cases i with
    | zero =>
      have hp' : p x = true := hp
      simp [List.findIdx?_cons, hp']
    | succ k =>
      have hx : p x = false := hb 0 (Nat.succ_pos k)
      have hrec : xs.findIdx? p = some k :=
        ih k (Nat.lt_of_succ_lt_succ hi) hp (fun j hj => hb (j + 1) (Nat.succ_lt_succ hj))
      simp [List.findIdx?_cons, hx, List.findIdx?_succ, hrec]

/-- Fixture constructor for a concrete `Service` (used only by witnesses and
counterexamples). -/
def mkService (id name : String) (tags : List String) (description : Option String)
    (status type : String) : Service :=
  { id := id, name := name, type := type, description := description, url := none,
    port := none, environment := "production", team := none, lastSeen := 0,
    status := status, tags := tags, metadata := [], healthCheck := none,
    criticality := "LOW", owner := none, version := none, deploymentDate := none,
    lastDeployment := none, uptime := none, responseTime := none, errorRate := none }

/-- Fixture constructor for a concrete `Dependency` (used only by witnesses and
counterexamples). -/
def mkDependency (id src tgt : String) : Dependency :=
  { id := id, sourceServiceId := src, targetServiceId := tgt,
    dependencyType := "API_CALL", usageCount := 0, lastUsed := 0,
    description := none, isActive := true, metadata := [], weight := 1,
    frequency := "HIGH", isCritical := false, failureImpact := "LOW",
    latency := none, errorRate := none, retryPolicy := none }

/-- Fixture: a primary application service. -/
def svcA : Service := mkService "app-1" "Application 1" ["generated", "app"] none "ACTIVE" "MICROSERVICE"

/-- Fixture: a support service. -/
def svcB : Service := mkService "svc-1" "Service 1" ["generated", "support"] none "ACTIVE" "MICROSERVICE"

/-- Fixture: a dependency from `svcA` to `svcB`. -/
def depAB : Dependency := mkDependency "dep-app-1-0" "app-1" "svc-1"

/-- Fixture: a state with two services and one dependency between them. -/
def stAB : DepState := { services := [svcA, svcB], dependencies := [depAB], analytics := [] }

/-- C4 counterexample: deleting service `app-1` from `stAB` does not leave the
dependencies list unchanged — the "Remove related dependencies" block of
`deleteService` drops the dependency `app-1 -> svc-1`. -/
theorem deleteService_changes_dependencies :
    (deleteService "app-1" stAB).dependencies ≠ stAB.dependencies := by decide

/-- C4 amended: `deleteService` leaves the analytics list unchanged, and its
effect on the dependencies list is exactly to remove (order preserved) every
dependency whose source or target id is the deleted id. -/
theorem deleteService_frame (serviceId : String) (st : DepState) :
    (deleteService serviceId st).analytics = st.analytics ∧
    List.Sublist (deleteService serviceId st).dependencies st.dependencies ∧
    ∀ d : Dependency, d ∈ (deleteService serviceId st).dependencies ↔
      d ∈ st.dependencies ∧ d.sourceServiceId ≠ serviceId ∧ d.targetServiceId ≠ serviceId := by
  refine ⟨rfl, List.filter_sublist _, fun d => ?_⟩
  simp [deleteService, List.mem_filter, and_assoc]

/-- Referential integrity: every dependency endpoint names an existing service. -/
abbrev refIntegrity (st : DepState) : Prop :=
  ∀ d ∈ st.dependencies,
    (∃ s ∈ st.services, s.id = d.sourceServiceId) ∧
    (∃ s ∈ st.services, s.id = d.targetServiceId)

/-- Conclusion of claim C5, see `deleteService_spec`. -/
def DeleteServiceSpec (serviceId : String) (st : DepState) : Prop :=
  (List.Sublist (deleteService serviceId st).services st.services ∧
    ∀ s : Service, s ∈ (deleteService serviceId st).services ↔
      s ∈ st.services ∧ s.id ≠ serviceId) ∧
  (List.Sublist (deleteService serviceId st).dependencies st.dependencies ∧
    ∀ d : Dependency, d ∈ (deleteService serviceId st).dependencies ↔
      d ∈ st.dependencies ∧ d.sourceServiceId ≠ serviceId ∧ d.targetServiceId ≠ serviceId) ∧
  refIntegrity (deleteService serviceId st)

/-- C5: `deleteService serviceId` keeps exactly the services with a different
id and exactly the dependencies with both endpoints different from
`serviceId`, in order; consequently it preserves referential integrity. -/
theorem deleteService_spec (serviceId : String) (st : DepState) (h : refIntegrity st) :
    DeleteServiceSpec serviceId st := by
  have hsv : ∀ s : Service, s ∈ (deleteService serviceId st).services ↔
      s ∈ st.services ∧ s.id ≠ serviceId := by
    intro s; simp [deleteService, List.mem_filter]
  have hdp : ∀ d : Dependency, d ∈ (deleteService serviceId st).dependencies ↔
      d ∈ st.dependencies ∧ d.sourceServiceId ≠ serviceId ∧ d.targetServiceId ≠ serviceId := by
    intro d; simp [deleteService, List.mem_filter, and_assoc]
  refine ⟨⟨List.filter_sublist _, hsv⟩, ⟨List.filter_sublist _, hdp⟩, ?_⟩
  intro d hd
  obtain ⟨hdmem, hdsrc, hdtgt⟩ := (hdp d).mp hd
  obtain ⟨⟨s1, hs1, hs1id⟩, ⟨s2, hs2, hs2id⟩⟩ := h d hdmem
  exact ⟨⟨s1, (hsv s1).mpr ⟨hs1, by rw [hs1id]; exact hdsrc⟩, hs1id⟩,
         ⟨s2, (hsv s2).mpr ⟨hs2, by rw [hs2id]; exact hdtgt⟩, hs2id⟩⟩

/-- C5 witness: the hypothesis and the conclusion hold at the concrete state
`stAB`. -/
theorem deleteService_spec_witness :
    refIntegrity stAB ∧ DeleteServiceSpec "app-1" stAB :=
  ⟨by decide, deleteService_spec "app-1" stAB (by decide)⟩

/-- Conclusion of claim C6, see `updateService_spec`. -/
def UpdateServiceSpec (service : Service) (st : DepState) : Prop :=
  ((∀ s ∈ st.services, s.id ≠ service.id) → updateService service st = st) ∧
  ((updateService service st).dependencies = st.dependencies ∧
    (updateService service st).analytics = st.analytics) ∧
  ∀ (i : Nat) (hi : i < st.services.length),
    (st.services.get ⟨i, hi⟩).id = service.id →
    (∀ (j : Nat) (hj : j < i), (st.services.get ⟨j, Nat.lt_trans hj hi⟩).id ≠ service.id) →
    updateService service st = { st with services := st.services.set i service }

/-- C6: `updateService s` is replace-by-id: when no current service has id
`s.id` the whole state is unchanged (no insert); the dependencies and
analytics lists are never touched; and when index `i` is the first position
whose id equals `s.id`, the services list becomes the old list with position
`i` replaced by `s`. -/
theorem updateService_spec (service : Service) (st : DepState) :
    UpdateServiceSpec service st := by
  refine ⟨?_, ?_, ?_⟩
  · intro h
    have hnone : st.services.findIdx? (fun s => s.id == service.id) = none := by
      rw [List.findIdx?_eq_none_iff]
      intro s hs
      exact beq_eq_false_iff_ne.mpr (h s hs)
    simp [updateService, hnone]
  · cases hfi : st.services.findIdx? (fun s => s.id == service.id) with
    | none => simp [updateService, hfi]
    | some index => simp [updateService, hfi]
  · intro i hi hp hb
    have hsome : st.services.findIdx? (fun s => s.id == service.id) = some i :=
      findIdx?_first _ st.services i hi (beq_iff_eq.mpr hp)
        (fun j hj => beq_eq_false_iff_ne.mpr (hb j hj))
    simp [updateService, hsome]

/-- Fixture: a replacement for `svcA` with the same id and a new name. -/
def svcA2 : Service := mkService "app-1" "Application 1 v2" ["generated"] none "INACTIVE" "MICROSERVICE"

/-- Fixture: a service whose id occurs nowhere in `stAB`. -/
def svcC : Service := mkService "app-2" "Application 2" ["generated", "app"] (some "Generated application 2") "ACTIVE" "MICROSERVICE"

/-- C6 witness: both branches of `updateService_spec` at concrete inputs:
replacing the first (index 0) service of `stAB`, and the no-op on an absent
id. -/
theorem updateService_spec_witness :
    updateService svcA2 stAB = { stAB with services := stAB.services.set 0 svcA2 } ∧
    updateService svcC stAB = stAB :=
  ⟨(updateService_spec svcA2 stAB).2.2 0 (by decide) (by decide)
      (fun j hj => absurd hj (Nat.not_lt_zero j)),
    (updateService_spec svcC stAB).1 (by decide)⟩

/-- C7: when no current service has id `s.id`, `addService s` appends `s`
(every previously present service is unchanged and in place) and the lookup
`getServiceById s.id` afterwards returns `s`; dependencies and analytics are
untouched. -/
theorem addService_getServiceById (service : Service) (st : DepState)
    (h : ∀ s ∈ st.services, s.id ≠ service.id) :
    getServiceById service.id (addService service st) = some service ∧
    (addService service st).services = st.services ++ [service] ∧
    (addService service st).dependencies = st.dependencies ∧
    (addService service st).analytics = st.analytics := by
  refine ⟨?_, rfl, rfl, rfl⟩
  have hnone : st.services.find? (fun s => s.id == service.id) = none := by
    rw [List.find?_eq_none]
    intro s hs
    simpa using h s hs
  simp [getServiceById, addService, List.find?_append, hnone]

/-- C7 witness: adding the fresh service `svcC` to `stAB`. -/
theorem addService_getServiceById_witness :
    getServiceById svcC.id (addService svcC stAB) = some svcC ∧
    (addService svcC stAB).services = stAB.services ++ [svcC] ∧
    (addService svcC stAB).dependencies = stAB.dependencies ∧
    (addService svcC stAB).analytics = stAB.analytics :=
  addService_getServiceById svcC stAB (by decide)

/-- C9: membership in `searchServices q` is exactly: the lowercased query is
contained in the lowercased name, or in the lowercased description when one
is present, or in the lowercased form of some tag; and the result depends on
the query only through its lowercasing, so any case-variant of the query
returns the same list. -/
theorem searchServices_spec (query : String) (st : DepState) :
    (∀ s : Service, s ∈ searchServices query st ↔ s ∈ st.services ∧
      (jsIncludes (jsToLower s.name) (jsToLower query) = true ∨
        (∃ d, s.description = some d ∧ jsIncludes (jsToLower d) (jsToLower query) = true) ∨
        ∃ t ∈ s.tags, jsIncludes (jsToLower t) (jsToLower query) = true)) ∧
    ∀ q' : String, jsToLower q' = jsToLower query →
      searchServices q' st = searchServices query st := by
  constructor
  · intro s
    simp only [searchServices, List.mem_filter, Bool.or_eq_true, List.any_eq_true]
    cases hd : s.description with
    | none => simp [hd]
    | some d => simp [hd, or_assoc]
  · intro q' h
    simp only [searchServices, h]

/-- C9 witness: an uppercase variant of the query "app" returns the same
result on `stAB`. -/
theorem searchServices_spec_witness :
    searchServices "APP" stAB = searchServices "app" stAB :=
  (searchServices_spec "app" stAB).2 "APP" (by decide)

/-- Runtime JavaScript values as far as `importData`/`exportData` observe
them.  TypeScript types are erased at runtime and `importData` assigns the
parsed values without validation, so the import/export layer is modelled on
this untyped universe.  `date` is a `Date` object (epoch timestamp); it is
not a JSON value: `JSON.stringify` serialises it as its ISO string and
`JSON.parse` never produces it.  `undef` is `undefined`. -/
inductive JsValue where
  | null : JsValue
  | undefVal : JsValue
  | bool (b : Bool) : JsValue
  | num (n : Int) : JsValue
  | str (s : String) : JsValue
  | date (t : Int) : JsValue
  | arr (elems : List JsValue) : JsValue
  | obj (fields : List (String × JsValue)) : JsValue
  deriving Repr

/-- Modelled from the platform: `Date.prototype.toISOString` (used by
`JSON.stringify` through `Date.prototype.toJSON`, and by `exportData` for
the `exportDate` field).  The claims depend on no property of the produced
digits, only on the fact that a `Date` serialises to a string, so the
timestamp is rendered naively. -/
def dateToISOString (t : Int) : String :=
  toString t ++ "Z"

/-! Modelled from the platform: the JSON value denoted by
`JSON.stringify(v)`, i.e. the composite `JSON.parse(JSON.stringify(v))`,
which is what a caller of `importData(exportData())` observes.  `none`
means `JSON.stringify` returned `undefined` (top-level `undefined`).
Per ECMA-404/ECMA-262: `Date` objects serialise to their ISO string via
`toJSON`; `undefined` members of objects are omitted; `undefined` elements
of arrays become `null`. -/
mutual

def stringifyVal : JsValue → Option JsValue
  | .null => some .null
  | .undefVal => none
  | .bool b => some (.bool b)
  | .num n => some (.num n)
  | .str s => some (.str s)
  | .date t => some (.str (dateToISOString t))
  | .arr xs => some (.arr (stringifyArr xs))
  | .obj fs => some (.obj (stringifyFields fs))

def stringifyArr : List JsValue → List JsValue
  | [] => []
  | x :: xs => ((stringifyVal x).getD .null) :: stringifyArr xs

def stringifyFields : List (String × JsValue) → List (String × JsValue)
  | [] => []
  | (k, v) :: fs =>
    match stringifyVal v with
    | none => stringifyFields fs
    | some w => (k, w) :: stringifyFields fs

end

/-! A value in the image of `JSON.parse`: plain JSON data, containing no
`Date` object and no `undefined`. -/
mutual

def isPlain : JsValue → Bool
  | .null => true
  | .undefVal => false
  | .bool _ => true
  | .num _ => true
  | .str _ => true
  | .date _ => false
  | .arr xs => isPlainArr xs
  | .obj fs => isPlainFields fs

def isPlainArr : List JsValue → Bool
  | [] => true
  | x :: xs => isPlain x && isPlainArr xs

def isPlainFields : List (String × JsValue) → Bool
  | [] => true
  | (_, v) :: fs => isPlain v && isPlainFields fs

end

/-! On plain JSON data, `JSON.parse` after `JSON.stringify` is the
identity. -/
mutual

theorem stringify_of_plain : ∀ (v : JsValue), isPlain v = true → stringifyVal v = some v
  | .null, _ => rfl
  | .bool _, _ => rfl
  | .num _, _ => rfl
  | .str _, _ => rfl
  | .arr xs, h => by
      rw [stringifyVal, stringifyArr_of_plain xs (by simpa [isPlain] using h)]
  | .obj fs, h => by
      rw [stringifyVal, stringifyFields_of_plain fs (by simpa [isPlain] using h)]

theorem stringifyArr_of_plain : ∀ (xs : List JsValue), isPlainArr xs = true → stringifyArr xs = xs
  | [], _ => rfl
  | x :: xs, h => by
      have hx : isPlain x = true := by
        have h2 := h; simp [isPlainArr, Bool.and_eq_true] at h2; exact h2.1
      have hxs : isPlainArr xs = true := by
        have h2 := h; simp [isPlainArr, Bool.and_eq_true] at h2; exact h2.2
      rw [stringifyArr, stringify_of_plain x hx, stringifyArr_of_plain xs hxs]
      rfl

theorem stringifyFields_of_plain :
    ∀ (fs : List (String × JsValue)), isPlainFields fs = true → stringifyFields fs = fs
  | [], _ => rfl
  | (k, v) :: fs, h => by
      have hv : isPlain v = true := by
        have h2 := h; simp [isPlainFields, Bool.and_eq_true] at h2; exact h2.1
      have hfs : isPlainFields fs = true := by
        have h2 := h; simp [isPlainFields, Bool.and_eq_true] at h2; exact h2.2
      rw [stringifyFields, stringify_of_plain v hv, stringifyFields_of_plain fs hfs]

end

/-- JavaScript truthiness of a runtime value. -/
def truthy : JsValue → Bool
  | .null => false
  | .undefVal => false
  | .bool b => b
  | .num n => n != 0
  | .str s => s != ""
  | .date _ => true
  | .arr _ => true
  | .obj _ => true

/-- First-match lookup in an object's fields (`undefined` when absent;
objects produced by `JSON.parse` have distinct keys). -/
def lookupField : List (String × JsValue) → String → JsValue
  | [], _ => .undefVal
  | (k, v) :: fs, key => if k == key then v else lookupField fs key

/-- JavaScript property access `v.key`: throws a `TypeError` (modelled as
`none`) on `null` and `undefined`, returns the field of an object, and
`undefined` on every other value. -/
def getProp : JsValue → String → Option JsValue
  | .null, _ => none
  | .undefVal, _ => none
  | .obj fields, key => some (lookupField fields key)
  | _, _ => some .undefVal

/-- The `DependencyService` state as the import/export layer sees it: the
three subjects hold arbitrary runtime values, because `importData` assigns
whatever was parsed, without validation. -/
structure DepStateJs where
  services : JsValue
  dependencies : JsValue
  analytics : JsValue
  deriving Repr

/-- `exportData`: `JSON.stringify` of the object
`{services, dependencies, analytics, exportDate: new Date().toISOString()}`,
represented by the JSON value its output string denotes (`exportDate` is
the caller-supplied ISO string `d`). -/
def exportData (st : DepStateJs) (d : String) : Option JsValue :=
  stringifyVal (.obj
    [("services", st.services), ("dependencies", st.dependencies),
     ("analytics", st.analytics), ("exportDate", .str d)])

/-- `importData`: `JSON.parse` inside `try`; the input is the parse result
(`none` when the input string is not valid JSON and `JSON.parse` throws).
Each of the three subjects is assigned when the corresponding property is
truthy.  Any throw — parse failure, or the `TypeError` raised by the
property access when the parse result is `null` — is caught and yields
`false`. -/
def importData (input : Option JsValue) (st : DepStateJs) : Bool × DepStateJs :=
  match input with
  | none => (false, st)
  | some parsed =>
    match getProp parsed "services" with
    | none => (false, st)
    | some sv =>
      let st1 := if truthy sv then { st with services := sv } else st
      match getProp parsed "dependencies" with
      | none => (false, st1)
      | some dv =>
        let st2 := if truthy dv then { st1 with dependencies := dv } else st1
        match getProp parsed "analytics" with
        | none => (false, st2)
        | some av =>
          let st3 := if truthy av then { st2 with analytics := av } else st2
          (true, st3)

/-- Helper: on a parsed JSON object, `importData` succeeds and assigns each
of the three subjects exactly when the corresponding property is truthy. -/
theorem importData_obj (fields : List (String × JsValue)) (st : DepStateJs) :
    importData (some (.obj fields)) st =
      (true,
        { services :=
            if truthy (lookupField fields "services") then lookupField fields "services"
            else st.services,
          dependencies :=
            if truthy (lookupField fields "dependencies") then lookupField fields "dependencies"
            else st.dependencies,
          analytics :=
            if truthy (lookupField fields "analytics") then lookupField fields "analytics"
            else st.analytics }) := by
  simp only [importData, getProp]
  split_ifs <;> rfl

/-- Fixture: an empty-but-typed runtime state (all three subjects hold
empty arrays), as after `importData` of a dataset with three empty lists. -/
def stJsEmpty : DepStateJs :=
  { services := .arr [], dependencies := .arr [], analytics := .arr [] }

/-- C2 counterexample: the string `"null"` is syntactically valid JSON
(`JSON.parse` yields `null`), yet `importData` returns `false` on it: the
property access `parsed.services` throws a `TypeError` on `null`, which the
`catch` turns into `false`.  So `false` is not returned exactly on
syntactically invalid JSON. -/
theorem importData_valid_json_false :
    importData (some JsValue.null) stJsEmpty = (false, stJsEmpty) := rfl

/-- C2 amended: for any parse result (`none` for a syntax error, otherwise
some plain JSON value), `importData` returns a boolean without propagating
the exception; it returns `false` exactly when the input fails to parse or
parses to JSON `null`, and whenever it returns `false` the three subjects
are unchanged. -/
theorem importData_false_iff (input : Option JsValue) (st : DepStateJs)
    (h : ∀ v, input = some v → isPlain v = true) :
    ((importData input st).1 = false ↔ input = none ∨ input = some JsValue.null) ∧
    ((importData input st).1 = false → (importData input st).2 = st) := by
  cases input with
  | none => exact ⟨by simp [importData], fun _ => rfl⟩
  | some v =>
    cases v with
    | null => exact ⟨by simp [importData, getProp], fun _ => rfl⟩
    | undefVal => exact absurd (h JsValue.undefVal rfl) (by simp [isPlain])
    | bool b => exact ⟨by simp [importData, getProp], by simp [importData, getProp]⟩
    | num n => exact ⟨by simp [importData, getProp], by simp [importData, getProp]⟩
    | str s => exact ⟨by simp [importData, getProp], by simp [importData, getProp]⟩
    | date t => exact ⟨by simp [importData, getProp], by simp [importData, getProp]⟩
    | arr xs => exact ⟨by simp [importData, getProp], by simp [importData, getProp]⟩
    | obj fs => exact ⟨by simp [importData_obj], by simp [importData_obj]⟩

/-- C2 witness: the amended equivalence at the concrete parse result of the
valid JSON text `"null"`. -/
theorem importData_false_iff_witness :
    ((importData (some JsValue.null) stJsEmpty).1 = false ↔
      some JsValue.null = none ∨ some JsValue.null = some JsValue.null) ∧
    ((importData (some JsValue.null) stJsEmpty).1 = false →
      (importData (some JsValue.null) stJsEmpty).2 = stJsEmpty) :=
  importData_false_iff (some JsValue.null) stJsEmpty
    (fun v hv => by cases hv; rfl)

/-- C10: `importData` of any parsed JSON object returns `true`; each of the
three subjects is replaced by the object's property exactly when that
property is present and truthy (an absent key reads as `undefined`, which is
falsy) and is left unchanged otherwise; in particular the parse result of
`"\x7b\x7d"` (the empty object) returns `true` and changes nothing. -/
theorem importData_selective (fields : List (String × JsValue)) (st : DepStateJs) :
    (importData (some (.obj fields)) st).1 = true ∧
    (importData (some (.obj fields)) st).2 =
      { services :=
          if truthy (lookupField fields "services") then lookupField fields "services"
          else st.services,
        dependencies :=
          if truthy (lookupField fields "dependencies") then lookupField fields "dependencies"
          else st.dependencies,
        analytics :=
          if truthy (lookupField fields "analytics") then lookupField fields "analytics"
          else st.analytics } ∧
    importData (some (.obj [])) st = (true, st) := by
  rw [importData_obj]
  exact ⟨rfl, rfl, by rw [importData_obj]; rfl⟩

/-- Fixture: a state whose services list holds one service record carrying a
`Date` object in `lastSeen`, as every service of the initial mock dataset
does (`generateMockApplications` sets `lastSeen: new Date()`), and as every
service added from the UI does. -/
def stJsDate : DepStateJs :=
  { services := .arr [.obj [("id", .str "app-1"), ("name", .str "Application 1"),
      ("lastSeen", .date 0)]],
    dependencies := .arr [],
    analytics := .arr [] }

/-- C1 counterexample: on a state containing a `Date` (any state freshly
populated by `generateMockApplications` is of this shape), export followed
by import does not restore the dataset: `JSON.stringify` serialises the
`Date` as its ISO string and `JSON.parse` returns a string, so the imported
services list differs from the exported one. -/
theorem export_import_not_id :
    (importData (exportData stJsDate "1970-01-01T00:00:00.000Z") stJsDate).2 ≠ stJsDate := by
  intro h
  have h2 : (importData (exportData stJsDate "1970-01-01T00:00:00.000Z") stJsDate).2.services
      = stJsDate.services := by rw [h]
  have h3 : JsValue.arr [.obj [("id", .str "app-1"), ("name", .str "Application 1"),
      ("lastSeen", .str (dateToISOString 0))]]
      = .arr [.obj [("id", .str "app-1"), ("name", .str "Application 1"),
      ("lastSeen", .date 0)]] := h2
  simp at h3

/-- C1 amended: export followed by import always returns `true`, and it
restores the in-memory dataset exactly whenever the three lists consist of
plain JSON values — as holds for every dataset previously loaded through
`importData`, though not for the `Date`-carrying initial mock dataset, whose
`Date` fields come back as ISO strings. -/
theorem export_import_roundTrip (st : DepStateJs) (d : String)
    (hs : ∃ l, st.services = .arr l ∧ isPlainArr l = true)
    (hd : ∃ l, st.dependencies = .arr l ∧ isPlainArr l = true)
    (ha : ∃ l, st.analytics = .arr l ∧ isPlainArr l = true) :
    importData (exportData st d) st = (true, st) := by
  obtain ⟨sv, dv, av⟩ := st
  obtain ⟨ls, hls, hpls⟩ := hs
  obtain ⟨ld, hld, hpld⟩ := hd
  obtain ⟨la, hla, hpla⟩ := ha
  cases hls; cases hld; cases hla
  have e1 : exportData ⟨.arr ls, .arr ld, .arr la⟩ d = some (.obj
      [("services", .arr ls), ("dependencies", .arr ld),
       ("analytics", .arr la), ("exportDate", .str d)]) := by
    rw [exportData]
    rw [show stringifyVal (.obj
        [("services", .arr ls), ("dependencies", .arr ld),
         ("analytics", .arr la), ("exportDate", .str d)])
      = some (.obj (stringifyFields
        [("services", .arr ls), ("dependencies", .arr ld),
         ("analytics", .arr la), ("exportDate", .str d)])) from rfl]
    rw [stringifyFields_of_plain _ (by
      simp [isPlainFields, isPlain, Bool.and_eq_true, hpls, hpld, hpla])]
  rw [e1, importData_obj]
  rfl

/-- C1 witness: the amended round trip at the concrete plain-JSON state
`stJsEmpty`. -/
theorem export_import_roundTrip_witness :
    importData (exportData stJsEmpty "1970-01-01T00:00:00.000Z") stJsEmpty
      = (true, stJsEmpty) :=
  export_import_roundTrip stJsEmpty "1970-01-01T00:00:00.000Z"
    ⟨[], rfl, rfl⟩ ⟨[], rfl, rfl⟩ ⟨[], rfl, rfl⟩
